import Mathlib

/-!
# Verification of the MJAPI bot relay protocol (`bot/mjapi/bot_mjapi.py`)

Shallow embedding of the sequencing / batching / retry / mode-translation
core of `BotMjapi`.  Remote calls are modelled by an `Oracle`: a function
from a global attempt counter to the outcome (reply or exception) of that
attempt.  Every operation threads an explicit `BotState`, the attempt
counter, and produces a trace of externally visible events (remote-call
attempts and sleeps), so that theorems can speak about what was actually
transmitted.
-/

namespace BotMjapi

/-- Modelled from the spec: the game modes of `bot.bot.GameMode` (that module
is not part of the sources); the spec names exactly a 4-player and a
3-player variant. -/
inductive GameMode where
  | MJ4P
  | MJ3P
deriving DecidableEq, Repr

namespace MjaiType

/-- Modelled from the spec: the event-type constant `MjaiType.REACH` of
`common.mj_helper` (that module is not part of the sources); the spec's
glossary names the self-declaration event "reach". -/
def REACH : String := "reach"

/-- Modelled from the spec: the event-type constant `MjaiType.NUKIDORA` of
`common.mj_helper`; the spec's glossary names the 3-player special discard
"nukidora". -/
def NUKIDORA : String := "nukidora"

/-- Modelled from the spec: the event-type constant `MjaiType.KITA` of
`common.mj_helper`; the spec's glossary names the 4-player equivalent
"kita". -/
def KITA : String := "kita"

/-- Modelled from the spec: the event-type constant `MjaiType.START_KYOKU` of
`common.mj_helper`; the spec names the round-start event "start_kyoku". -/
def START_KYOKU : String := "start_kyoku"

end MjaiType

/-- A game message (a Python dict).  The fields the code reads or writes are
explicit; `rest` stands for all remaining keys, which the code never
inspects and always carries along unchanged (shallow copy).  `reach_dahai`
models the optional embedded reaction: the outer `Option` is key presence,
the inner one allows the stored value itself to be `None`. -/
inductive Msg : Type where
  | mk (type : Option String) (actor : Option Nat) (scores : Option (List Int))
       (tehais : Option (List (List String))) (can_act : Option Bool)
       (reach_dahai : Option (Option Msg)) (rest : List (String × String)) : Msg

/-- The `type` field of a message (`msg['type']` / `msg.get('type')`). -/
def Msg.type : Msg → Option String
  | .mk t _ _ _ _ _ _ => t

/-- The `actor` field of a message. -/
def Msg.actor : Msg → Option Nat
  | .mk _ a _ _ _ _ _ => a

/-- The `scores` field of a message. -/
def Msg.scores : Msg → Option (List Int)
  | .mk _ _ s _ _ _ _ => s

/-- The `tehais` field of a message. -/
def Msg.tehais : Msg → Option (List (List String))
  | .mk _ _ _ te _ _ _ => te

/-- The `can_act` field of a message. -/
def Msg.can_act : Msg → Option Bool
  | .mk _ _ _ _ c _ _ => c

/-- The `reach_dahai` field of a message. -/
def Msg.reach_dahai : Msg → Option (Option Msg)
  | .mk _ _ _ _ _ r _ => r

/-- The remaining (never-inspected) fields of a message. -/
def Msg.rest : Msg → List (String × String)
  | .mk _ _ _ _ _ _ x => x

/-- `msg['type'] = t` on a (copied) message. -/
def Msg.withType (m : Msg) (t : String) : Msg :=
  match m with
  | .mk _ a s te c r x => .mk (some t) a s te c r x

/-- `msg['scores'] = v` on a (copied) message. -/
def Msg.withScores (m : Msg) (v : List Int) : Msg :=
  match m with
  | .mk t a _ te c r x => .mk t a (some v) te c r x

/-- `msg['tehais'] = v` on a (copied) message. -/
def Msg.withTehais (m : Msg) (v : List (List String)) : Msg :=
  match m with
  | .mk t a s _ c r x => .mk t a s (some v) c r x

/-- `msg['can_act'] = b` on a (copied) message. -/
def Msg.withCanAct (m : Msg) (b : Bool) : Msg :=
  match m with
  | .mk t a s te _ r x => .mk t a s te (some b) r x

/-- `reaction['reach_dahai'] = v` on a message. -/
def Msg.withReachDahai (m : Msg) (v : Option Msg) : Msg :=
  match m with
  | .mk t a s te c _ x => .mk t a s te c (some v) x

@[simp] theorem Msg.type_mk (t a s te c r x) : (Msg.mk t a s te c r x).type = t := rfl
@[simp] theorem Msg.actor_mk (t a s te c r x) : (Msg.mk t a s te c r x).actor = a := rfl
@[simp] theorem Msg.scores_mk (t a s te c r x) : (Msg.mk t a s te c r x).scores = s := rfl
@[simp] theorem Msg.tehais_mk (t a s te c r x) : (Msg.mk t a s te c r x).tehais = te := rfl
@[simp] theorem Msg.can_act_mk (t a s te c r x) : (Msg.mk t a s te c r x).can_act = c := rfl
@[simp] theorem Msg.reach_dahai_mk (t a s te c r x) : (Msg.mk t a s te c r x).reach_dahai = r := rfl
@[simp] theorem Msg.rest_mk (t a s te c r x) : (Msg.mk t a s te c r x).rest = x := rfl
@[simp] theorem Msg.withType_mk (t a s te c r x u) :
    (Msg.mk t a s te c r x).withType u = Msg.mk (some u) a s te c r x := rfl
@[simp] theorem Msg.withScores_mk (t a s te c r x v) :
    (Msg.mk t a s te c r x).withScores v = Msg.mk t a (some v) te c r x := rfl
@[simp] theorem Msg.withTehais_mk (t a s te c r x v) :
    (Msg.mk t a s te c r x).withTehais v = Msg.mk t a s (some v) c r x := rfl
@[simp] theorem Msg.withCanAct_mk (t a s te c r x b) :
    (Msg.mk t a s te c r x).withCanAct b = Msg.mk t a s te (some b) r x := rfl
@[simp] theorem Msg.withReachDahai_mk (t a s te c r x v) :
    (Msg.mk t a s te c r x).withReachDahai v = Msg.mk t a s te c (some v) x := rfl

/-- A raw remote reply: either not a structured mapping at all (`atom`,
covering Python `None` and any non-dict value) or a mapping. -/
inductive Raw : Type where
  | atom : Raw
  | obj (m : Msg) : Raw

/-- A remote request: `mjapi.act(seq, data)` or
`mjapi.batch([{'seq': s, 'data': m}, ...])`. -/
inductive Req : Type where
  | act (seq : Int) (data : Msg) : Req
  | batch (data : List (Int × Msg)) : Req

/-- Outcome of one attempt of a remote call: a reply, or a raised
exception (exceptions are identified by a number). -/
inductive Outcome : Type where
  | ok (r : Raw) : Outcome
  | exn (e : Nat) : Outcome

/-- The remote service, indexed by a global attempt counter: attempt `k`
(across the whole run, retries included) yields `o k`. -/
def Oracle : Type := Nat → Outcome

/-- Errors that can escape the bot's entry points: a Python `KeyError` on a
missing dict key, or a remote exception re-raised after retries. -/
inductive Err : Type where
  | keyError (k : String) : Err
  | remote (e : Nat) : Err
deriving DecidableEq

/-- Externally visible events: one attempt of a remote call, or a
`time.sleep(secs)`. -/
inductive Ev : Type where
  | attempt (req : Req) : Ev
  | sleep (secs : Nat) : Ev

/-- Mutable per-session state of `BotMjapi` used by the per-turn logic. -/
structure BotState where
  id : Int
  ignore_next_turn_self_reach : Bool
  seat : Nat
  current_mode : GameMode

/-- Result of running an operation: its outcome, the state afterwards, the
new global attempt counter, and the trace of events it caused. -/
structure Res (α : Type) where
  out : Except Err α
  st : BotState
  clock : Nat
  trace : List Ev

/-- `BotMjapi.batch_size = 24`. -/
def batch_size : Nat := 24

/-- `BotMjapi.retries = 3`. -/
def retries : Nat := 3

/-- `BotMjapi.retry_interval = 1`. -/
def retry_interval : Nat := 1

/-- `BotMjapi.bound = 256`. -/
def bound : Int := 256

/-- Outcome of the bare retry loop (before `Err` wrapping): the reply or the
last exception, the new attempt counter, and the trace. -/
structure CallRes where
  out : Except Nat Raw
  clock : Nat
  trace : List Ev

/-- The retry loop shared by `react` and `_react_batch_impl`:
`for _ in range(retries): try: ... break; except: err = e; sleep(retry_interval)`.
Attempts the request up to `fuel` times; sleeps `retry_interval` after every
failed attempt; on success returns the reply, on exhaustion the last
exception. -/
def retry_loop (o : Oracle) (req : Req) : Nat → Nat → CallRes
  | 0, n => ⟨.error 0, n, []⟩
  | fuel + 1, n =>
    match o n with
    | .ok r => ⟨.ok r, n + 1, [.attempt req]⟩
    | .exn e =>
      if fuel = 0 then ⟨.error e, n + 1, [.attempt req, .sleep retry_interval]⟩
      else
        let r := retry_loop o req fuel (n + 1)
        ⟨r.out, r.clock, .attempt req :: .sleep retry_interval :: r.trace⟩

/-- `_process_reaction(reaction, recurse=False)`: with `recurse` false the
function is pure — it only normalizes malformed replies to `None`. -/
def process_reaction_nr (reaction : Raw) : Option Msg :=
  match reaction with
  | .atom => none
  | .obj m =>
    match m.type with
    | none => none
    | some _ => some m

/-- Coercion of a Python `dict | None` value back into a raw reply, used when
a processed reaction is fed into `_process_reaction` again. -/
def optToRaw : Option Msg → Raw
  | none => .atom
  | some m => .obj m

/-- Outcome of the suppression pre-check at the top of `react`. -/
inductive PreR : Type where
  | suppressed : PreR
  | go (st : BotState) : PreR

/-- The pre-check at the top of `react`: read `input_msg['type']` (a missing
key raises), and if `ignore_next_turn_self_reach` is set, silently swallow a
matching self-reach echo (leaving the flag set), otherwise clear the flag
and continue. -/
def react_pre (st : BotState) (input_msg : Msg) : Except Err PreR :=
  match input_msg.type with
  | none => .error (.keyError "type")
  | some msg_type =>
    if st.ignore_next_turn_self_reach then
      if msg_type = MjaiType.REACH then
        match input_msg.actor with
        | none => .error (.keyError "actor")
        | some a =>
          if a = st.seat then .ok .suppressed
          else .ok (.go { st with ignore_next_turn_self_reach := false })
      else .ok (.go { st with ignore_next_turn_self_reach := false })
    else .ok (.go st)

/-- The middle of `react`: save `old_id`, advance `self.id` modulo `bound`,
run the retry loop on `mjapi.act(self.id, input_msg)`; on exhaustion restore
`old_id` and re-raise, on success hand back the raw reply. -/
def react_send (o : Oracle) (st : BotState) (n : Nat) (input_msg : Msg) : Res Raw :=
  let old_id := st.id
  let st1 : BotState := { st with id := (st.id + 1) % bound }
  let r := retry_loop o (.act st1.id input_msg) retries n
  match r.out with
  | .ok raw => ⟨.ok raw, st1, r.clock, r.trace⟩
  | .error e => ⟨.error (.remote e), { st1 with id := old_id }, r.clock, r.trace⟩

/-- `react(input_msg, recurse=False)`: pre-check, send with retry/rollback,
then the non-recursive `_process_reaction`. -/
def react_nr (o : Oracle) (st : BotState) (n : Nat) (input_msg : Msg) : Res (Option Msg) :=
  match react_pre st input_msg with
  | .error e => ⟨.error e, st, n, []⟩
  | .ok .suppressed => ⟨.ok none, st, n, []⟩
  | .ok (.go st1) =>
    let r := react_send o st1 n input_msg
    match r.out with
    | .error e => ⟨.error e, r.st, r.clock, r.trace⟩
    | .ok raw => ⟨.ok (process_reaction_nr raw), r.st, r.clock, r.trace⟩

/-- The synthetic follow-up event `{'type': MjaiType.REACH, 'actor': self.seat}`
built inside `_process_reaction`. -/
def reach_msg (seat : Nat) : Msg :=
  .mk (some MjaiType.REACH) (some seat) none none none none []

/-- `_process_reaction(reaction, recurse)`: normalize a malformed reply to
`None`; if `recurse` and the reply is this seat's own reach declaration,
issue the synthetic follow-up `react(reach_msg, recurse=False)`, embed its
(re-validated) result under `reach_dahai`, and set
`ignore_next_turn_self_reach`.  Reading `reaction['actor']` on a reply that
lacks that key raises `KeyError`. -/
def process_reaction (o : Oracle) (st : BotState) (n : Nat) (reaction : Raw)
    (recurse : Bool) : Res (Option Msg) :=
  match reaction with
  | .atom => ⟨.ok none, st, n, []⟩
  | .obj m =>
    match m.type with
    | none => ⟨.ok none, st, n, []⟩
    | some t =>
      if recurse = true ∧ t = MjaiType.REACH then
        match m.actor with
        | none => ⟨.error (.keyError "actor"), st, n, []⟩
        | some a =>
          if a = st.seat then
            let r := react_nr o st n (reach_msg st.seat)
            match r.out with
            | .error e => ⟨.error e, r.st, r.clock, r.trace⟩
            | .ok dahai =>
              ⟨.ok (some (m.withReachDahai (process_reaction_nr (optToRaw dahai)))),
               { r.st with ignore_next_turn_self_reach := true }, r.clock, r.trace⟩
          else ⟨.ok (some m), st, n, []⟩
      else ⟨.ok (some m), st, n, []⟩

/-- `BotMjapi.react(input_msg, recurse)`: suppression pre-check, sequence
advance + retry + rollback, then `_process_reaction(reaction, recurse)`. -/
def react (o : Oracle) (st : BotState) (n : Nat) (input_msg : Msg)
    (recurse : Bool) : Res (Option Msg) :=
  match react_pre st input_msg with
  | .error e => ⟨.error e, st, n, []⟩
  | .ok .suppressed => ⟨.ok none, st, n, []⟩
  | .ok (.go st1) =>
    let r := react_send o st1 n input_msg
    match r.out with
    | .error e => ⟨.error e, r.st, r.clock, r.trace⟩
    | .ok raw =>
      let r2 := process_reaction o r.st r.clock raw recurse
      ⟨r2.out, r2.st, r2.clock, r.trace ++ r2.trace⟩

/-- The `start_kyoku` trimming shared by `_preprocess_for_3p` and the inline
rules of `_react_batch_impl`: on a copy, trim a 4-entry `scores` to its
first 3 entries, and likewise a 4-entry `tehais`. -/
def trimStartKyoku (m : Msg) : Msg :=
  let m1 :=
    match m.scores with
    | some s => if s.length = 4 then m.withScores (s.take 3) else m
    | none => m
  match m1.tehais with
  | some te => if te.length = 4 then m1.withTehais (te.take 3) else m1
  | none => m1

/-- `BotMjapi._preprocess_for_3p(msg)`: defined in the source but never
called by it.  In 3-player mode it applies the `start_kyoku` trimming to a
copy; every other message (and every message in 4-player mode) passes
through unchanged. -/
def preprocess_for_3p (mode : GameMode) (msg : Msg) : Msg :=
  if mode ≠ GameMode.MJ3P then msg
  else if msg.type = some MjaiType.START_KYOKU then trimStartKyoku msg
  else msg

/-- The inline 3-player pre-processing of `_react_batch_impl`: on a copy of
each message, in 3-player mode trim `start_kyoku` arrays, or rewrite a
`nukidora` type to `kita`; everything else (and 4-player mode) is the
identity. -/
def preprocess_msg_3p (mode : GameMode) (m : Msg) : Msg :=
  if mode = GameMode.MJ3P then
    match m.type with
    | some t =>
      if t = MjaiType.START_KYOKU then trimStartKyoku m
      else if t = MjaiType.NUKIDORA then m.withType MjaiType.KITA
      else m
    | none => m
  else m

/-- The stamping loop of `_react_batch_impl`: for each message (at absolute
index `i` of a chunk of length `total`), advance the sequence id, copy and
pre-process the message, set `can_act = False` on the chunk's last message
when the chunk flag `can_act` is false, and emit the wire action
`{'seq': id, 'data': msg}`.  Returns the actions and the final id. -/
def build_batch (mode : GameMode) (can_act : Bool) (total : Nat) :
    List Msg → Int → Nat → List (Int × Msg) × Int
  | [], curId, _ => ([], curId)
  | m :: ms, curId, i =>
    let newId := (curId + 1) % bound
    let msg1 := preprocess_msg_3p mode m
    let msg2 := if i + 1 = total ∧ can_act = false then msg1.withCanAct false else msg1
    let r := build_batch mode can_act total ms newId (i + 1)
    ((newId, msg2) :: r.1, r.2)

/-- `BotMjapi._react_batch_impl(input_list, can_act)`: empty chunks yield no
action; otherwise stamp and pre-process the chunk, send it through the
retry loop as one `mjapi.batch` call (restoring the pre-call id and
re-raising on exhaustion), and pass the reply through
`_process_reaction(reaction, True)`. -/
def react_batch_impl (o : Oracle) (st : BotState) (n : Nat)
    (input_list : List Msg) (can_act : Bool) : Res (Option Msg) :=
  match input_list with
  | [] => ⟨.ok none, st, n, []⟩
  | l@(_ :: _) =>
    let old_id := st.id
    let b := build_batch st.current_mode can_act l.length l st.id 0
    let st1 : BotState := { st with id := b.2 }
    let r := retry_loop o (.batch b.1) retries n
    match r.out with
    | .error e => ⟨.error (.remote e), { st1 with id := old_id }, r.clock, r.trace⟩
    | .ok raw =>
      let r2 := process_reaction o st1 r.clock raw true
      ⟨r2.out, r2.st, r2.clock, r.trace ++ r2.trace⟩

/-- The suppression pre-check at the top of `react_batch`: when the flag is
set and the list is non-empty, drop a first element that is this seat's own
reach echo, and clear the flag unconditionally. -/
def react_batch_pre (st : BotState) (input_list : List Msg) :
    Except Err (BotState × List Msg) :=
  match input_list with
  | [] => .ok (st, [])
  | first :: restL =>
    if st.ignore_next_turn_self_reach then
      match first.type with
      | none => .error (.keyError "type")
      | some t =>
        if t = MjaiType.REACH then
          match first.actor with
          | none => .error (.keyError "actor")
          | some a =>
            if a = st.seat then
              .ok ({ st with ignore_next_turn_self_reach := false }, restL)
            else
              .ok ({ st with ignore_next_turn_self_reach := false }, first :: restL)
        else .ok ({ st with ignore_next_turn_self_reach := false }, first :: restL)
    else .ok (st, first :: restL)

/-- Helper for the chunking loop: the first argument is recursion fuel,
always instantiated with the list length (every chunk consumes at least
one element, so the fuel never runs out). -/
def chunksAux : Nat → List Msg → List (List Msg)
  | _, [] => []
  | 0, _ :: _ => []
  | fuel + 1, x :: xs =>
    (x :: xs).take batch_size :: chunksAux fuel (xs.drop (batch_size - 1))

/-- The chunking `input_list[start:start + batch_size]` for
`start in range(0, len(input_list), batch_size)`. -/
def chunks24 (l : List Msg) : List (List Msg) := chunksAux l.length l

/-- The dispatch loop of `react_batch`: run `_react_batch_impl` on each
chunk (chunk `i` gets `can_act = (i + 1 == num_batches)`), keeping only the
last chunk's reaction; an exception raised by any chunk aborts the loop. -/
def react_batch_loop (o : Oracle) (num_batches : Nat) :
    List (List Msg) → Nat → BotState → Nat → Res (Option Msg)
  | [], _, st, n => ⟨.ok none, st, n, []⟩
  | [c], i, st, n => react_batch_impl o st n c (i + 1 = num_batches)
  | c :: c2 :: cs, i, st, n =>
    let r := react_batch_impl o st n c (i + 1 = num_batches)
    match r.out with
    | .error e => ⟨.error e, r.st, r.clock, r.trace⟩
    | .ok _ =>
      let r2 := react_batch_loop o num_batches (c2 :: cs) (i + 1) r.st r.clock
      ⟨r2.out, r2.st, r2.clock, r.trace ++ r2.trace⟩

/-- `BotMjapi.react_batch(input_list)`: suppression pre-check on the first
element only, then split into `batch_size` chunks with
`num_batches = (len - 1) // batch_size + 1` and dispatch each chunk. -/
def react_batch (o : Oracle) (st : BotState) (n : Nat)
    (input_list : List Msg) : Res (Option Msg) :=
  match react_batch_pre st input_list with
  | .error e => ⟨.error e, st, n, []⟩
  | .ok (st1, l) =>
    match l with
    | [] => ⟨.ok none, st1, n, []⟩
    | l'@(_ :: _) =>
      let num_batches := (l'.length - 1) / batch_size + 1
      react_batch_loop o num_batches (chunks24 l') 0 st1 n

/-- The remote-call attempts recorded in a trace, in order. -/
def attemptsOf (tr : List Ev) : List Req :=
  tr.filterMap fun e =>
    match e with
    | .attempt r => some r
    | .sleep _ => none

/-- The `time.sleep` durations recorded in a trace, in order. -/
def sleepsOf (tr : List Ev) : List Nat :=
  tr.filterMap fun e =>
    match e with
    | .sleep s => some s
    | .attempt _ => none

/-- The sequence numbers carried by one request: one for an `act` call, one
per element for a `batch` call. -/
def reqSeqs : Req → List Int
  | .act s _ => [s]
  | .batch d => d.map Prod.fst

/-- All sequence numbers transmitted in a trace, in transmission order. -/
def transmitted (tr : List Ev) : List Int :=
  ((attemptsOf tr).map reqSeqs).flatten

/-- The number of sequence numbers transmitted in a trace. -/
def numT (tr : List Ev) : Nat := (transmitted tr).length

/-- The payloads of the `batch` calls recorded in a trace, in order. -/
def batchReqs (tr : List Ev) : List (List (Int × Msg)) :=
  tr.filterMap fun e =>
    match e with
    | .attempt (.batch d) => some d
    | _ => none

/-- Iterated sequence advance: `stepN i k` is the value of the counter after
`k` advances `id := (id + 1) % bound` starting from `i`. -/
def stepN (i : Int) : Nat → Int
  | 0 => i
  | k + 1 => stepN ((i + 1) % bound) k

/-- The sequence numbers produced by `k` successive advances from `i`. -/
def seqsFrom (i : Int) : Nat → List Int
  | 0 => []
  | k + 1 => (i + 1) % bound :: seqsFrom ((i + 1) % bound) k

/-- A remote service that never raises: every attempt yields some reply. -/
def OkOracle (o : Oracle) : Prop := ∀ k, ∃ r, o k = .ok r

/-- A remote service whose reach-typed replies always carry an `actor` key
(so that `_process_reaction` never hits its `KeyError`). -/
def ActorOracle (o : Oracle) : Prop :=
  ∀ k m, o k = .ok (.obj m) → m.type = some MjaiType.REACH → ∃ a, m.actor = some a

/-- A caller feeding a list of single events one by one through
`react(-, recurse=True)`, stopping at the first raised exception. -/
def run_list (o : Oracle) (st : BotState) (n : Nat) : List Msg → Res (Option Msg)
  | [] => ⟨.ok none, st, n, []⟩
  | m :: ms =>
    let r := react o st n m true
    match r.out with
    | .error e => ⟨.error e, r.st, r.clock, r.trace⟩
    | .ok _ =>
      match ms with
      | [] => r
      | _ :: _ =>
        let r2 := run_list o r.st r.clock ms
        ⟨r2.out, r2.st, r2.clock, r.trace ++ r2.trace⟩

/-! ## Sequence-counter bookkeeping lemmas -/

theorem stepN_add (i : Int) (a b : Nat) : stepN i (a + b) = stepN (stepN i a) b := by
  induction a generalizing i with
  | zero => simp [stepN]
  | succ a ih =>
    have h1 : a + 1 + b = (a + b) + 1 := by omega
    rw [h1, stepN, stepN]
    exact ih _

theorem seqsFrom_add (i : Int) (a b : Nat) :
    seqsFrom i (a + b) = seqsFrom i a ++ seqsFrom (stepN i a) b := by
  induction a generalizing i with
  | zero => simp [seqsFrom, stepN]
  | succ a ih =>
    have h1 : a + 1 + b = (a + b) + 1 := by omega
    rw [h1, seqsFrom, seqsFrom, stepN, List.cons_append, ← ih]

theorem transmitted_append (t1 t2 : List Ev) :
    transmitted (t1 ++ t2) = transmitted t1 ++ transmitted t2 := by
  simp [transmitted, attemptsOf, List.filterMap_append]

theorem numT_append (t1 t2 : List Ev) : numT (t1 ++ t2) = numT t1 + numT t2 := by
  simp [numT, transmitted_append]

/-- The sequence invariant: after an operation run from `st0`, the counter
equals `st0.id` advanced once per transmitted sequence number, and the
transmitted sequence numbers are exactly the consecutive advances of
`st0.id`. -/
def INV (st0 : BotState) (r : Res α) : Prop :=
  r.st.id = stepN st0.id (numT r.trace) ∧
  transmitted r.trace = seqsFrom st0.id (numT r.trace)

theorem INV_nil (st : BotState) (out : Except Err α) (n : Nat) :
    INV st (⟨out, st, n, []⟩ : Res α) := by
  constructor <;> simp [numT, transmitted, attemptsOf, stepN, seqsFrom]

theorem INV_recast {st0 : BotState} {r : Res α} (h : INV st0 r)
    {st' : BotState} (hid : st'.id = r.st.id) (out : Except Err β) (c : Nat) :
    INV st0 (⟨out, st', c, r.trace⟩ : Res β) := by
  exact ⟨by rw [show (⟨out, st', c, r.trace⟩ : Res β).st.id = st'.id from rfl, hid]; exact h.1,
         h.2⟩

theorem INV_of_id_eq {st0 st0' : BotState} (h : st0.id = st0'.id) {r : Res α}
    (hr : INV st0 r) : INV st0' r := by
  constructor
  · rw [hr.1, h]
  · rw [hr.2, h]

theorem INV_comp {st0 : BotState} {r : Res α} {r2 : Res β}
    (h1 : INV st0 r) (h2 : INV r.st r2) (out : Except Err γ) (c : Nat) :
    INV st0 (⟨out, r2.st, c, r.trace ++ r2.trace⟩ : Res γ) := by
  constructor
  · show r2.st.id = stepN st0.id (numT (r.trace ++ r2.trace))
    rw [numT_append, stepN_add, ← h1.1]
    exact h2.1
  · show transmitted (r.trace ++ r2.trace) = seqsFrom st0.id (numT (r.trace ++ r2.trace))
    rw [numT_append, transmitted_append, seqsFrom_add, ← h1.1, h1.2, h2.2]

theorem stepN_nonneg_lt (i : Int) (k : Nat) (h0 : 0 ≤ i) (h1 : i < bound) :
    0 ≤ stepN i k ∧ stepN i k < bound := by
  induction k generalizing i with
  | zero => exact ⟨h0, h1⟩
  | succ k ih =>
    rw [stepN]
    exact ih _ (Int.emod_nonneg _ (by simp [bound])) (Int.emod_lt_of_pos _ (by simp [bound]))

theorem stepN_eq_emod (i : Int) (k : Nat) (h0 : 0 ≤ i) (h1 : i < bound) :
    stepN i k = (i + k) % bound := by
  induction k generalizing i with
  | zero => simpa [stepN] using (Int.emod_eq_of_lt h0 h1).symm
  | succ k ih =>
    rw [stepN, ih _ (Int.emod_nonneg _ (by simp [bound])) (Int.emod_lt_of_pos _ (by simp [bound]))]
    simp only [bound]
    push_cast
    omega

/-! ## Trace evaluation lemmas -/

@[simp] theorem attemptsOf_nil : attemptsOf [] = [] := rfl

@[simp] theorem attemptsOf_cons_attempt (r : Req) (tr : List Ev) :
    attemptsOf (.attempt r :: tr) = r :: attemptsOf tr := rfl

@[simp] theorem attemptsOf_cons_sleep (s : Nat) (tr : List Ev) :
    attemptsOf (.sleep s :: tr) = attemptsOf tr := rfl

@[simp] theorem sleepsOf_nil : sleepsOf [] = [] := rfl

@[simp] theorem sleepsOf_cons_attempt (r : Req) (tr : List Ev) :
    sleepsOf (.attempt r :: tr) = sleepsOf tr := rfl

@[simp] theorem sleepsOf_cons_sleep (s : Nat) (tr : List Ev) :
    sleepsOf (.sleep s :: tr) = s :: sleepsOf tr := rfl

@[simp] theorem batchReqs_nil : batchReqs [] = [] := rfl

@[simp] theorem batchReqs_cons_act (s : Int) (m : Msg) (tr : List Ev) :
    batchReqs (.attempt (.act s m) :: tr) = batchReqs tr := rfl

@[simp] theorem batchReqs_cons_batch (d : List (Int × Msg)) (tr : List Ev) :
    batchReqs (.attempt (.batch d) :: tr) = d :: batchReqs tr := rfl

@[simp] theorem batchReqs_cons_sleep (s : Nat) (tr : List Ev) :
    batchReqs (.sleep s :: tr) = batchReqs tr := rfl

theorem batchReqs_append (t1 t2 : List Ev) :
    batchReqs (t1 ++ t2) = batchReqs t1 ++ batchReqs t2 := by
  simp [batchReqs, List.filterMap_append]

theorem seqsFrom_length (i : Int) (k : Nat) : (seqsFrom i k).length = k := by
  induction k generalizing i with
  | zero => rfl
  | succ k ih => simp [seqsFrom, ih]

/-! ## Characterizations of the remote-call layer under a never-failing oracle -/

theorem retry_loop_retries_ok (o : Oracle) (req : Req) (n : Nat) (raw : Raw)
    (h : o n = .ok raw) :
    retry_loop o req retries n = ⟨.ok raw, n + 1, [.attempt req]⟩ := by
  rw [retries, show (3 : Nat) = 2 + 1 from rfl, retry_loop, h]

theorem react_send_ok (o : Oracle) (st : BotState) (n : Nat) (msg : Msg) (raw : Raw)
    (h : o n = .ok raw) :
    react_send o st n msg =
      ⟨.ok raw, { st with id := (st.id + 1) % bound }, n + 1,
       [.attempt (.act ((st.id + 1) % bound) msg)]⟩ := by
  simp [react_send, retry_loop_retries_ok o _ n raw h]

theorem react_pre_go {st : BotState} {msg : Msg} {st1 : BotState}
    (h : react_pre st msg = .ok (.go st1)) :
    st1.id = st.id ∧ st1.seat = st.seat ∧ st1.current_mode = st.current_mode := by
  unfold react_pre at h
  repeat' split at h
  all_goals simp_all
  all_goals (subst h; simp)

theorem INV_send (st : BotState) (st1 : BotState) (hid : st1.id = st.id) (raw : Raw)
    (n : Nat) (msg : Msg) :
    INV st (⟨.ok raw, { st1 with id := (st1.id + 1) % bound }, n + 1,
            [.attempt (.act ((st1.id + 1) % bound) msg)]⟩ : Res Raw) := by
  constructor <;>
    simp [INV, numT, transmitted, reqSeqs, stepN, seqsFrom, hid]

theorem react_nr_inv (o : Oracle) (ho : OkOracle o) (st : BotState) (n : Nat) (msg : Msg) :
    INV st (react_nr o st n msg) := by
  unfold react_nr
  split
  · exact INV_nil _ _ _
  · exact INV_nil _ _ _
  · next st1 heq =>
    obtain ⟨raw, hraw⟩ := ho n
    simp only [react_send_ok o st1 n msg raw hraw]
    exact INV_recast (INV_send st st1 (react_pre_go heq).1 raw n msg) rfl _ _

theorem process_reaction_inv (o : Oracle) (ho : OkOracle o) (st : BotState) (n : Nat)
    (raw : Raw) (rec : Bool) : INV st (process_reaction o st n raw rec) := by
  unfold process_reaction
  split
  · exact INV_nil _ _ _
  · split
    · exact INV_nil _ _ _
    · split
      · split
        · exact INV_nil _ _ _
        · split
          · dsimp only
            split
            · exact INV_recast (react_nr_inv o ho st n (reach_msg st.seat)) rfl _ _
            · exact INV_recast (react_nr_inv o ho st n (reach_msg st.seat)) rfl _ _
          · exact INV_nil _ _ _
      · exact INV_nil _ _ _

theorem react_inv (o : Oracle) (ho : OkOracle o) (st : BotState) (n : Nat) (msg : Msg)
    (rec : Bool) : INV st (react o st n msg rec) := by
  unfold react
  split
  · exact INV_nil _ _ _
  · exact INV_nil _ _ _
  · next st1 heq =>
    obtain ⟨raw, hraw⟩ := ho n
    simp only [react_send_ok o st1 n msg raw hraw]
    exact INV_comp (INV_send st st1 (react_pre_go heq).1 raw n msg)
      (process_reaction_inv o ho _ _ raw rec) _ _

theorem build_batch_spec (mode : GameMode) (ca : Bool) (total : Nat) :
    ∀ (l : List Msg) (curId : Int) (i : Nat),
      (build_batch mode ca total l curId i).2 = stepN curId l.length ∧
      (build_batch mode ca total l curId i).1.map Prod.fst = seqsFrom curId l.length
  | [], curId, i => by simp [build_batch, stepN, seqsFrom]
  | m :: ms, curId, i => by
    have ih := build_batch_spec mode ca total ms ((curId + 1) % bound) (i + 1)
    simp [build_batch, stepN, seqsFrom, ih.1, ih.2]

theorem react_batch_impl_inv (o : Oracle) (ho : OkOracle o) (st : BotState) (n : Nat)
    (l : List Msg) (ca : Bool) : INV st (react_batch_impl o st n l ca) := by
  unfold react_batch_impl
  split
  · exact INV_nil _ _ _
  · next x xs =>
    obtain ⟨raw, hraw⟩ := ho n
    simp only [retry_loop_retries_ok o _ n raw hraw]
    have hb := build_batch_spec st.current_mode ca (x :: xs).length (x :: xs) st.id 0
    have hlen : (build_batch st.current_mode ca (x :: xs).length (x :: xs) st.id 0).1.length
        = (x :: xs).length := by
      have := congrArg List.length hb.2
      simpa [seqsFrom_length] using this
    have hfst : INV st (⟨.ok raw,
        { st with id := (build_batch st.current_mode ca (x :: xs).length (x :: xs) st.id 0).2 },
        n + 1,
        [.attempt (.batch (build_batch st.current_mode ca (x :: xs).length (x :: xs) st.id 0).1)]⟩
        : Res Raw) := by
      constructor
      · show (build_batch st.current_mode ca (x :: xs).length (x :: xs) st.id 0).2 = _
        rw [hb.1]
        simp only [numT, transmitted, attemptsOf_cons_attempt, attemptsOf_nil,
          List.map_cons, List.map_nil, List.flatten_cons, List.flatten_nil,
          List.append_nil, reqSeqs, List.length_map]
        rw [hlen]
      · show transmitted _ = _
        simp only [numT, transmitted, attemptsOf_cons_attempt, attemptsOf_nil,
          List.map_cons, List.map_nil, List.flatten_cons, List.flatten_nil,
          List.append_nil, reqSeqs, List.length_map]
        rw [hlen]
        exact hb.2
    exact INV_comp hfst (process_reaction_inv o ho _ _ raw true) _ _

theorem react_batch_loop_inv (o : Oracle) (ho : OkOracle o) (nb : Nat) :
    ∀ (cs : List (List Msg)) (i : Nat) (st : BotState) (n : Nat),
      INV st (react_batch_loop o nb cs i st n)
  | [], _, st, n => INV_nil _ _ _
  | [c], i, st, n => react_batch_impl_inv o ho st n c _
  | c :: c2 :: cs, i, st, n => by
    unfold react_batch_loop
    dsimp only
    split
    · exact INV_recast (react_batch_impl_inv o ho st n c _) rfl _ _
    · exact INV_comp (react_batch_impl_inv o ho st n c _)
        (react_batch_loop_inv o ho nb (c2 :: cs) (i + 1) _ _) _ _

theorem react_batch_pre_go {st : BotState} {l : List Msg} {st1 : BotState} {l' : List Msg}
    (h : react_batch_pre st l = .ok (st1, l')) : st1.id = st.id := by
  unfold react_batch_pre at h
  repeat' split at h
  all_goals simp_all
  all_goals (rw [← h.1])

theorem react_batch_inv (o : Oracle) (ho : OkOracle o) (st : BotState) (n : Nat)
    (l : List Msg) : INV st (react_batch o st n l) := by
  unfold react_batch
  split
  · exact INV_nil _ _ _
  · next st1 l' heq =>
    have hid : st1.id = st.id := react_batch_pre_go heq
    split
    · constructor <;> simp [INV, numT, transmitted, stepN, seqsFrom, hid]
    · exact INV_of_id_eq hid (react_batch_loop_inv o ho _ _ 0 st1 n)

theorem run_list_inv (o : Oracle) (ho : OkOracle o) :
    ∀ (l : List Msg) (st : BotState) (n : Nat), INV st (run_list o st n l)
  | [], st, n => INV_nil _ _ _
  | [m], st, n => by
    unfold run_list
    dsimp only
    split
    · exact INV_recast (react_inv o ho st n m true) rfl _ _
    · exact react_inv o ho st n m true
  | m :: m2 :: ms, st, n => by
    unfold run_list
    dsimp only
    split
    · exact INV_recast (react_inv o ho st n m true) rfl _ _
    · exact INV_comp (react_inv o ho st n m true)
        (run_list_inv o ho (m2 :: ms) _ _) _ _

/-! ## Concrete fixtures -/

/-- A plain draw event. -/
def mTsumo : Msg := .mk (some "tsumo") (some 0) none none none none []

/-- A 3-player special-discard (nukidora) event of seat 0. -/
def mNuki : Msg := .mk (some MjaiType.NUKIDORA) (some 0) none none none none []

/-- A reach event/reply of seat 0. -/
def mReach0 : Msg := .mk (some MjaiType.REACH) (some 0) none none none none []

/-- A session state: counter 5, flag clear, seat 0, 4-player mode. -/
def st5 : BotState := ⟨5, false, 0, .MJ4P⟩

/-- A session state: counter 5, flag clear, seat 0, 3-player mode. -/
def st5p3 : BotState := ⟨5, false, 0, .MJ3P⟩

/-- A remote service that always replies with a non-dict value. -/
def oAtom : Oracle := fun _ => .ok .atom

/-- A remote service that always replies with seat 0's reach declaration. -/
def oReach : Oracle := fun _ => .ok (.obj mReach0)

/-- A remote service whose attempt `k` raises exception number `k`. -/
def oFail : Oracle := fun k => .exn k

/-! ## C1 -/

/-- **C1, amended.**  Under a remote service that never raises, the sequence
counter advances by exactly one (mod `bound`) per transmitted Action, both
for a sequence of single events fed through `react` and for `react_batch`
(including every element of every transmitted batch): the counter after
processing equals the initial value advanced once per transmitted Action,
and the transmitted sequence numbers are exactly the consecutive advances
of the initial value.  In particular, when the initial counter lies in
`[0, bound)`, the final counter is `(initial + T) % bound` where `T` is the
number of transmitted Actions — which exceeds the number of input events
when a self-reach reply triggers the synthetic follow-up call, and falls
short of it when a suppressed echo transmits nothing. -/
theorem C1_counter_per_transmitted_action (o : Oracle) (ho : OkOracle o)
    (st : BotState) (n : Nat) (msgs : List Msg) (l : List Msg)
    (h0 : 0 ≤ st.id) (h1 : st.id < bound) :
    ((run_list o st n msgs).st.id
        = (st.id + numT (run_list o st n msgs).trace) % bound ∧
     transmitted (run_list o st n msgs).trace
        = seqsFrom st.id (numT (run_list o st n msgs).trace)) ∧
    ((react_batch o st n l).st.id
        = (st.id + numT (react_batch o st n l).trace) % bound ∧
     transmitted (react_batch o st n l).trace
        = seqsFrom st.id (numT (react_batch o st n l).trace)) := by
  have hs := run_list_inv o ho msgs st n
  have hb := react_batch_inv o ho st n l
  exact ⟨⟨by rw [hs.1, stepN_eq_emod _ _ h0 h1], hs.2⟩,
         ⟨by rw [hb.1, stepN_eq_emod _ _ h0 h1], hb.2⟩⟩

/-- **C1, witness.**  The amended claim applied to a concrete session and a
concrete never-failing remote service. -/
theorem C1_counter_per_transmitted_action_witness :
    ((run_list oAtom st5 0 [mTsumo]).st.id
        = (st5.id + numT (run_list oAtom st5 0 [mTsumo]).trace) % bound ∧
     transmitted (run_list oAtom st5 0 [mTsumo]).trace
        = seqsFrom st5.id (numT (run_list oAtom st5 0 [mTsumo]).trace)) ∧
    ((react_batch oAtom st5 0 [mTsumo]).st.id
        = (st5.id + numT (react_batch oAtom st5 0 [mTsumo]).trace) % bound ∧
     transmitted (react_batch oAtom st5 0 [mTsumo]).trace
        = seqsFrom st5.id (numT (react_batch oAtom st5 0 [mTsumo]).trace)) :=
  C1_counter_per_transmitted_action oAtom (fun _ => ⟨.atom, rfl⟩) st5 0 [mTsumo] [mTsumo]
    (by decide) (by decide)

/-- **C1, counterexample to the claim as stated.**  One single event
processed by `react` with no remote-call failure (the service always
replies with seat 0's own reach declaration): the reply triggers the
synthetic follow-up call, so the counter ends at `initial + 2`, not
`(initial + N) % bound = initial + 1`. -/
theorem C1_counterexample :
    OkOracle oReach ∧
    (run_list oReach st5 0 [mTsumo]).out
      = .ok (some (mReach0.withReachDahai (some mReach0))) ∧
    (run_list oReach st5 0 [mTsumo]).st.id = 7 ∧
    (st5.id + ([mTsumo] : List Msg).length) % bound = 6 ∧
    (run_list oReach st5 0 [mTsumo]).st.id
      ≠ (st5.id + ([mTsumo] : List Msg).length) % bound :=
  ⟨fun _ => ⟨.obj mReach0, rfl⟩, rfl, by decide, by decide, by decide⟩

/-! ## C2 -/

/-- A reply that is this seat's own reach declaration (the only reply shape
that makes `_process_reaction(-, recurse=True)` issue a further remote
call). -/
def isSelfReach (r : Raw) (seat : Nat) : Bool :=
  match r with
  | .atom => false
  | .obj m => m.type == some MjaiType.REACH && m.actor == some seat

theorem process_reaction_not_selfreach (o : Oracle) (st : BotState) (n : Nat)
    (raw : Raw) (rec : Bool) (h : isSelfReach raw st.seat = false) :
    (process_reaction o st n raw rec).st = st ∧
    (process_reaction o st n raw rec).trace = [] := by
  unfold process_reaction
  split
  · exact ⟨rfl, rfl⟩
  · next m =>
    split
    · exact ⟨rfl, rfl⟩
    · next t htype =>
      split
      · next hc =>
        split
        · exact ⟨rfl, rfl⟩
        · next a hactor =>
          split
          · next ha =>
            exfalso
            simp [isSelfReach, htype, hactor, hc.2, ha] at h
          · exact ⟨rfl, rfl⟩
      · exact ⟨rfl, rfl⟩

theorem retry_loop_retries_ok2 (o : Oracle) (req : Req) (n : Nat) (e0 : Nat) (raw : Raw)
    (h0 : o n = .exn e0) (h1 : o (n + 1) = .ok raw) :
    retry_loop o req retries n =
      ⟨.ok raw, n + 2,
       [.attempt req, .sleep retry_interval, .attempt req]⟩ := by
  rw [retries, show (3 : Nat) = 2 + 1 from rfl, retry_loop, h0]
  rw [show (2 : Nat) = 1 + 1 from rfl, retry_loop, h1]
  rfl

theorem retry_loop_retries_ok3 (o : Oracle) (req : Req) (n : Nat) (e0 e1 : Nat) (raw : Raw)
    (h0 : o n = .exn e0) (h1 : o (n + 1) = .exn e1) (h2 : o (n + 2) = .ok raw) :
    retry_loop o req retries n =
      ⟨.ok raw, n + 3,
       [.attempt req, .sleep retry_interval, .attempt req, .sleep retry_interval,
        .attempt req]⟩ := by
  rw [retries, show (3 : Nat) = 2 + 1 from rfl, retry_loop, h0]
  rw [show (2 : Nat) = 1 + 1 from rfl, retry_loop, h1]
  rw [show n + 1 + 1 = n + 2 from rfl]
  rw [show (1 : Nat) = 0 + 1 from rfl, retry_loop, h2]
  rfl

theorem retry_loop_retries_fail (o : Oracle) (req : Req) (n : Nat) (e0 e1 e2 : Nat)
    (h0 : o n = .exn e0) (h1 : o (n + 1) = .exn e1) (h2 : o (n + 2) = .exn e2) :
    retry_loop o req retries n =
      ⟨.error e2, n + 3,
       [.attempt req, .sleep retry_interval, .attempt req, .sleep retry_interval,
        .attempt req, .sleep retry_interval]⟩ := by
  rw [retries, show (3 : Nat) = 2 + 1 from rfl, retry_loop, h0]
  rw [show (2 : Nat) = 1 + 1 from rfl, retry_loop, h1]
  rw [show n + 1 + 1 = n + 2 from rfl]
  rw [show (1 : Nat) = 0 + 1 from rfl, retry_loop, h2]
  rfl

theorem react_send_fail (o : Oracle) (st : BotState) (n : Nat) (msg : Msg) (e0 e1 e2 : Nat)
    (h0 : o n = .exn e0) (h1 : o (n + 1) = .exn e1) (h2 : o (n + 2) = .exn e2) :
    react_send o st n msg =
      ⟨.error (.remote e2), st, n + 3,
       [.attempt (.act ((st.id + 1) % bound) msg), .sleep retry_interval,
        .attempt (.act ((st.id + 1) % bound) msg), .sleep retry_interval,
        .attempt (.act ((st.id + 1) % bound) msg), .sleep retry_interval]⟩ := by
  simp [react_send, retry_loop_retries_fail o _ n e0 e1 e2 h0 h1 h2]

theorem react_send_ok2 (o : Oracle) (st : BotState) (n : Nat) (msg : Msg) (e0 : Nat)
    (raw : Raw) (h0 : o n = .exn e0) (h1 : o (n + 1) = .ok raw) :
    react_send o st n msg =
      ⟨.ok raw, { st with id := (st.id + 1) % bound }, n + 2,
       [.attempt (.act ((st.id + 1) % bound) msg), .sleep retry_interval,
        .attempt (.act ((st.id + 1) % bound) msg)]⟩ := by
  simp [react_send, retry_loop_retries_ok2 o _ n e0 raw h0 h1]

/-- **C2.**  The retry policy and its rollback, for both the single and the
batched call: the underlying call is attempted at most 3 times
(`retries = 3`), with a fixed wait of `retry_interval = 1` after every
failed attempt (the four retry conjuncts characterize the loop for every
possible oracle); when every attempt raises, `react` and
`_react_batch_impl` restore the whole pre-call state (in particular the
sequence counter, regardless of the size of the failed batch) and re-raise
the *last* error; when some attempt succeeds, the counter keeps its
advanced value (by one for a single call, by the chunk length for a batched
call). -/
theorem C2_retry_and_rollback :
    retries = 3 ∧ retry_interval = 1 ∧
    (∀ (o : Oracle) (req : Req) (n : Nat) (raw : Raw), o n = .ok raw →
       retry_loop o req retries n = ⟨.ok raw, n + 1, [.attempt req]⟩) ∧
    (∀ (o : Oracle) (req : Req) (n e0 : Nat) (raw : Raw),
       o n = .exn e0 → o (n + 1) = .ok raw →
       retry_loop o req retries n
         = ⟨.ok raw, n + 2, [.attempt req, .sleep retry_interval, .attempt req]⟩) ∧
    (∀ (o : Oracle) (req : Req) (n e0 e1 : Nat) (raw : Raw),
       o n = .exn e0 → o (n + 1) = .exn e1 → o (n + 2) = .ok raw →
       retry_loop o req retries n
         = ⟨.ok raw, n + 3, [.attempt req, .sleep retry_interval, .attempt req,
                             .sleep retry_interval, .attempt req]⟩) ∧
    (∀ (o : Oracle) (req : Req) (n e0 e1 e2 : Nat),
       o n = .exn e0 → o (n + 1) = .exn e1 → o (n + 2) = .exn e2 →
       retry_loop o req retries n
         = ⟨.error e2, n + 3, [.attempt req, .sleep retry_interval, .attempt req,
                               .sleep retry_interval, .attempt req, .sleep retry_interval]⟩) ∧
    (∀ (o : Oracle) (st : BotState) (n : Nat) (msg : Msg) (t : String) (e0 e1 e2 : Nat)
       (rec : Bool), st.ignore_next_turn_self_reach = false → msg.type = some t →
       o n = .exn e0 → o (n + 1) = .exn e1 → o (n + 2) = .exn e2 →
       (react o st n msg rec).out = .error (.remote e2) ∧
       (react o st n msg rec).st = st) ∧
    (∀ (o : Oracle) (st : BotState) (n : Nat) (x : Msg) (xs : List Msg) (ca : Bool)
       (e0 e1 e2 : Nat),
       o n = .exn e0 → o (n + 1) = .exn e1 → o (n + 2) = .exn e2 →
       (react_batch_impl o st n (x :: xs) ca).out = .error (.remote e2) ∧
       (react_batch_impl o st n (x :: xs) ca).st = st) ∧
    (∀ (o : Oracle) (st : BotState) (n : Nat) (msg : Msg) (t : String) (raw : Raw),
       st.ignore_next_turn_self_reach = false → msg.type = some t →
       o n = .ok raw → isSelfReach raw st.seat = false →
       (react o st n msg true).st.id = (st.id + 1) % bound) ∧
    (∀ (o : Oracle) (st : BotState) (n : Nat) (msg : Msg) (t : String) (e0 : Nat)
       (raw : Raw),
       st.ignore_next_turn_self_reach = false → msg.type = some t →
       o n = .exn e0 → o (n + 1) = .ok raw → isSelfReach raw st.seat = false →
       (react o st n msg true).st.id = (st.id + 1) % bound) ∧
    (∀ (o : Oracle) (st : BotState) (n : Nat) (x : Msg) (xs : List Msg) (ca : Bool)
       (raw : Raw), o n = .ok raw → isSelfReach raw st.seat = false →
       (react_batch_impl o st n (x :: xs) ca).st.id = stepN st.id (x :: xs).length) := by
  refine ⟨rfl, rfl, retry_loop_retries_ok, retry_loop_retries_ok2, retry_loop_retries_ok3,
    retry_loop_retries_fail, ?_, ?_, ?_, ?_, ?_⟩
  · intro o st n msg t e0 e1 e2 rec hflag htype h0 h1 h2
    unfold react
    rw [show react_pre st msg = .ok (.go st) by
      unfold react_pre; rw [htype]; simp [hflag]]
    simp [react_send_fail o st n msg e0 e1 e2 h0 h1 h2]
  · intro o st n x xs ca e0 e1 e2 h0 h1 h2
    unfold react_batch_impl
    simp [retry_loop_retries_fail o _ n e0 e1 e2 h0 h1 h2]
  · intro o st n msg t raw hflag htype hok hsr
    unfold react
    rw [show react_pre st msg = .ok (.go st) by
      unfold react_pre; rw [htype]; simp [hflag]]
    simp only [react_send_ok o st n msg raw hok]
    have hpr := process_reaction_not_selfreach o { st with id := (st.id + 1) % bound }
      (n + 1) raw true (by simpa using hsr)
    simp [hpr.1]
  · intro o st n msg t e0 raw hflag htype h0 h1 hsr
    unfold react
    rw [show react_pre st msg = .ok (.go st) by
      unfold react_pre; rw [htype]; simp [hflag]]
    simp only [react_send_ok2 o st n msg e0 raw h0 h1]
    have hpr := process_reaction_not_selfreach o { st with id := (st.id + 1) % bound }
      (n + 2) raw true (by simpa using hsr)
    simp [hpr.1]
  · intro o st n x xs ca raw hok hsr
    unfold react_batch_impl
    simp only [retry_loop_retries_ok o _ n raw hok]
    have hb := build_batch_spec st.current_mode ca (x :: xs).length (x :: xs) st.id 0
    have hpr := process_reaction_not_selfreach o
      { st with id := (build_batch st.current_mode ca (x :: xs).length (x :: xs) st.id 0).2 }
      (n + 1) raw true hsr
    simp only [List.length_cons] at hb hpr
    simp only [List.length_cons]
    rw [hpr.1]
    exact hb.1

/-- **C2, witness.**  The all-fail conjunct of the theorem applied at a
concrete session, message and thrice-failing remote service: the last
error is re-raised and the state (counter included) is fully restored. -/
theorem C2_retry_and_rollback_witness :
    (react oFail st5 0 mTsumo true).out = .error (.remote 2) ∧
    (react oFail st5 0 mTsumo true).st = st5 :=
  C2_retry_and_rollback.2.2.2.2.2.2.1 oFail st5 0 mTsumo "tsumo" 0 1 2 true
    rfl rfl rfl rfl rfl

/-! ## Characterization of the self-reach sub-protocol -/

theorem process_reaction_nr_optToRaw (v : Raw) :
    process_reaction_nr (optToRaw (process_reaction_nr v)) = process_reaction_nr v := by
  cases v with
  | atom => rfl
  | obj m =>
    cases h : m.type with
    | none => simp [process_reaction_nr, optToRaw, h]
    | some t => simp [process_reaction_nr, optToRaw, h]

theorem react_nr_reach_msg (o : Oracle) (st : BotState) (n : Nat) (raw : Raw)
    (hflag : st.ignore_next_turn_self_reach = false) (h : o n = .ok raw) :
    react_nr o st n (reach_msg st.seat) =
      ⟨.ok (process_reaction_nr raw), { st with id := (st.id + 1) % bound }, n + 1,
       [.attempt (.act ((st.id + 1) % bound) (reach_msg st.seat))]⟩ := by
  unfold react_nr
  rw [show react_pre st (reach_msg st.seat) = .ok (.go st) by
    unfold react_pre reach_msg; simp [hflag]]
  simp [react_send_ok o st n _ raw h]

/-- The resolved self-declaration sub-protocol of `_process_reaction`: on
this seat's own reach reply with `recurse=true`, one synthetic follow-up
`act` call is made, its validated reply is embedded under `reach_dahai`,
and the suppression flag is set. -/
theorem process_reaction_selfreach (o : Oracle) (st : BotState) (n : Nat) (m : Msg)
    (raw2 : Raw) (hflag : st.ignore_next_turn_self_reach = false)
    (htype : m.type = some MjaiType.REACH) (hactor : m.actor = some st.seat)
    (h : o n = .ok raw2) :
    process_reaction o st n (.obj m) true =
      ⟨.ok (some (m.withReachDahai (process_reaction_nr raw2))),
       { st with id := (st.id + 1) % bound, ignore_next_turn_self_reach := true }, n + 1,
       [.attempt (.act ((st.id + 1) % bound) (reach_msg st.seat))]⟩ := by
  unfold process_reaction
  simp only [htype, hactor]
  rw [react_nr_reach_msg o st n raw2 hflag h]
  simp [process_reaction_nr_optToRaw]

/-! ## C3 -/

theorem Msg.type_withCanAct (m : Msg) (b : Bool) : (m.withCanAct b).type = m.type := by
  cases m
  rfl

theorem Msg.can_act_withType (m : Msg) (t : String) : (m.withType t).can_act = m.can_act := by
  cases m
  rfl

/-- **C3, amended.**  Mode translation of event types happens only on the
batch path: in 3-player mode the inline pre-processing of
`_react_batch_impl` rewrites a nukidora-typed event to the kita type with
all other fields unchanged; in 4-player mode neither the inline rules nor
`_preprocess_for_3p` change any event; and the single-event `react` path
transmits its input event unmodified (no mode translation at all), even in
3-player mode. -/
theorem C3_nukidora_translation :
    (∀ m : Msg, m.type = some MjaiType.NUKIDORA →
       preprocess_msg_3p .MJ3P m = m.withType MjaiType.KITA) ∧
    (∀ m : Msg, preprocess_msg_3p .MJ4P m = m ∧ preprocess_for_3p .MJ4P m = m) ∧
    (∀ (mode : GameMode) (ca : Bool) (total : Nat) (l : List Msg) (curId : Int) (i : Nat),
       (build_batch mode ca total l curId i).1.map (fun p => p.2.type)
         = l.map (fun m => (preprocess_msg_3p mode m).type)) ∧
    (∀ (o : Oracle) (st : BotState) (n : Nat) (msg : Msg) (t : String) (raw : Raw),
       st.ignore_next_turn_self_reach = false → msg.type = some t → o n = .ok raw →
       (react o st n msg true).trace.head?
         = some (.attempt (.act ((st.id + 1) % bound) msg))) := by
  refine ⟨?_, ?_, ?_, ?_⟩
  · intro m htype
    unfold preprocess_msg_3p
    rw [htype]
    simp [MjaiType.NUKIDORA, MjaiType.START_KYOKU, MjaiType.KITA]
  · intro m
    constructor
    · unfold preprocess_msg_3p
      simp
    · unfold preprocess_for_3p
      simp
  · intro mode ca total l
    induction l with
    | nil => intro curId i; simp [build_batch]
    | cons m ms ih =>
      intro curId i
      simp only [build_batch, List.map_cons]
      congr 1
      · split
        · rw [Msg.type_withCanAct]
        · rfl
      · exact ih _ _
  · intro o st n msg t raw hflag htype hok
    unfold react
    rw [show react_pre st msg = .ok (.go st) by
      unfold react_pre; rw [htype]; simp [hflag]]
    simp only [react_send_ok o st n msg raw hok]
    simp

/-- **C3, witness.**  The amended claim at concrete inputs: the batch-path
rule rewrites a concrete nukidora event, 4-player mode is the identity, and
the single-event path transmits the raw nukidora event in 3-player mode. -/
theorem C3_nukidora_translation_witness :
    preprocess_msg_3p .MJ3P mNuki = mNuki.withType MjaiType.KITA ∧
    preprocess_msg_3p .MJ4P mNuki = mNuki ∧
    (react oAtom st5p3 0 mNuki true).trace.head?
      = some (.attempt (.act ((st5p3.id + 1) % bound) mNuki)) :=
  ⟨C3_nukidora_translation.1 mNuki rfl,
   (C3_nukidora_translation.2.1 mNuki).1,
   C3_nukidora_translation.2.2.2 oAtom st5p3 0 mNuki MjaiType.NUKIDORA .atom rfl rfl rfl⟩

/-- **C3, counterexample to the claim as stated.**  In 3-player mode the
single-event `react` path transmits a nukidora-typed event with its type
unchanged (the claim says it is rewritten to kita before transmission on
both paths). -/
theorem C3_counterexample :
    st5p3.current_mode = GameMode.MJ3P ∧
    mNuki.type = some MjaiType.NUKIDORA ∧
    (react oAtom st5p3 0 mNuki true).trace = [.attempt (.act 6 mNuki)] ∧
    MjaiType.NUKIDORA ≠ MjaiType.KITA :=
  ⟨rfl, rfl, rfl, by decide⟩

/-! ## C4 -/

/-- **C4, amended.**  The suppression flag becomes set when the
self-declaration sub-protocol resolves, but its consumption is the reverse
of the claimed machine.  In `react`: while set, a matching self-reach echo
is consumed silently (no action, no remote call) and the flag *remains
set*; a non-matching event (different type, or reach of another seat)
*clears* the flag and is then processed exactly as if the flag had been
clear.  In `react_batch` the flag is cleared unconditionally on any
non-empty input: a matching first echo is dropped and the rest processed
with the flag clear, and a non-matching first event leaves the whole input
processed with the flag clear. -/
theorem C4_suppression_flag_machine :
    (∀ (o : Oracle) (st : BotState) (n : Nat) (m : Msg) (rec : Bool),
       st.ignore_next_turn_self_reach = true →
       m.type = some MjaiType.REACH → m.actor = some st.seat →
       react o st n m rec = ⟨.ok none, st, n, []⟩) ∧
    (∀ (o : Oracle) (st : BotState) (n : Nat) (m : Msg) (t : String) (rec : Bool),
       m.type = some t → t ≠ MjaiType.REACH →
       react o { st with ignore_next_turn_self_reach := true } n m rec
         = react o { st with ignore_next_turn_self_reach := false } n m rec) ∧
    (∀ (o : Oracle) (st : BotState) (n : Nat) (m : Msg) (a : Nat) (rec : Bool),
       m.type = some MjaiType.REACH → m.actor = some a → a ≠ st.seat →
       react o { st with ignore_next_turn_self_reach := true } n m rec
         = react o { st with ignore_next_turn_self_reach := false } n m rec) ∧
    (∀ (o : Oracle) (st : BotState) (n : Nat) (m : Msg) (raw2 : Raw),
       st.ignore_next_turn_self_reach = false →
       m.type = some MjaiType.REACH → m.actor = some st.seat → o n = .ok raw2 →
       (process_reaction o st n (.obj m) true).st.ignore_next_turn_self_reach = true) ∧
    (∀ (o : Oracle) (st : BotState) (n : Nat) (e : Msg) (rest : List Msg) (a : Nat),
       st.ignore_next_turn_self_reach = true →
       e.type = some MjaiType.REACH → e.actor = some a → a = st.seat →
       react_batch o st n (e :: rest)
         = react_batch o { st with ignore_next_turn_self_reach := false } n rest) ∧
    (∀ (o : Oracle) (st : BotState) (n : Nat) (e : Msg) (rest : List Msg) (t : String),
       e.type = some t → t ≠ MjaiType.REACH →
       react_batch o { st with ignore_next_turn_self_reach := true } n (e :: rest)
         = react_batch o { st with ignore_next_turn_self_reach := false } n (e :: rest)) := by
  refine ⟨?_, ?_, ?_, ?_, ?_, ?_⟩
  · intro o st n m rec hflag htype hactor
    unfold react
    rw [show react_pre st m = .ok .suppressed by
      unfold react_pre; rw [htype, hactor]; simp [hflag]]
  · intro o st n m t rec htype ht
    unfold react
    rw [show react_pre { st with ignore_next_turn_self_reach := true } m
          = .ok (.go { st with ignore_next_turn_self_reach := false }) by
        unfold react_pre; rw [htype]; simp [ht]]
    rw [show react_pre { st with ignore_next_turn_self_reach := false } m
          = .ok (.go { st with ignore_next_turn_self_reach := false }) by
        unfold react_pre; rw [htype]; simp]
  · intro o st n m a rec htype hactor ha
    unfold react
    rw [show react_pre { st with ignore_next_turn_self_reach := true } m
          = .ok (.go { st with ignore_next_turn_self_reach := false }) by
        unfold react_pre; rw [htype, hactor]; simp [ha]]
    rw [show react_pre { st with ignore_next_turn_self_reach := false } m
          = .ok (.go { st with ignore_next_turn_self_reach := false }) by
        unfold react_pre; rw [htype]; simp]
  · intro o st n m raw2 hflag htype hactor hok
    rw [process_reaction_selfreach o st n m raw2 hflag htype hactor hok]
  · intro o st n e rest a hflag htype hactor ha
    unfold react_batch
    rw [show react_batch_pre st (e :: rest)
          = .ok ({ st with ignore_next_turn_self_reach := false }, rest) by
        unfold react_batch_pre; simp [hflag, htype, hactor, ha]]
    rw [show react_batch_pre { st with ignore_next_turn_self_reach := false } rest
          = .ok ({ st with ignore_next_turn_self_reach := false }, rest) by
        unfold react_batch_pre; cases rest <;> simp]
  · intro o st n e rest t htype ht
    unfold react_batch
    rw [show react_batch_pre { st with ignore_next_turn_self_reach := true } (e :: rest)
          = .ok ({ st with ignore_next_turn_self_reach := false }, e :: rest) by
        unfold react_batch_pre; simp [htype, ht]]
    rw [show react_batch_pre { st with ignore_next_turn_self_reach := false } (e :: rest)
          = .ok ({ st with ignore_next_turn_self_reach := false }, e :: rest) by
        unfold react_batch_pre; simp]

/-- **C4, witness.**  The amended flag machine at concrete inputs: a
matching echo is consumed silently with the flag kept set. -/
theorem C4_suppression_flag_machine_witness :
    react oAtom ⟨5, true, 0, .MJ4P⟩ 0 mReach0 true
      = ⟨.ok none, ⟨5, true, 0, .MJ4P⟩, 0, []⟩ :=
  C4_suppression_flag_machine.1 oAtom ⟨5, true, 0, .MJ4P⟩ 0 mReach0 true rfl rfl rfl

/-- **C4, counterexample to the claim as stated.**  With the flag set, a
matching self-reach echo is consumed silently but the flag is *not*
cleared (it stays `true`), contradicting the claimed transition back to
the default state. -/
theorem C4_counterexample :
    (react oAtom ⟨5, true, 0, .MJ4P⟩ 0 mReach0 true).out = .ok none ∧
    (react oAtom ⟨5, true, 0, .MJ4P⟩ 0 mReach0 true).trace = [] ∧
    (react oAtom ⟨5, true, 0, .MJ4P⟩ 0 mReach0 true).st.ignore_next_turn_self_reach
      = true :=
  ⟨rfl, rfl, rfl⟩

/-! ## C6 -/

/-- **C6.**  A self-declaration (reach) reply for this bot's own seat,
processed with `recurse=true`: exactly one synthetic follow-up `act` call
with the event `{'type': reach, 'actor': seat}` is transmitted (the trace
holds that single attempt, for *any* follow-up reply — so the recursion
depth is capped at 1 even when the follow-up reply is itself a reach), the
validated follow-up reaction is embedded under `reach_dahai`, the
suppression flag is set, and the embedded value equals what the direct
non-recursive call with the synthetic event returns. -/
theorem C6_reach_dahai_embedding (o : Oracle) (st : BotState) (n : Nat) (m : Msg)
    (raw2 : Raw) (hflag : st.ignore_next_turn_self_reach = false)
    (htype : m.type = some MjaiType.REACH) (hactor : m.actor = some st.seat)
    (h : o n = .ok raw2) :
    (process_reaction o st n (.obj m) true).out
        = .ok (some (m.withReachDahai (process_reaction_nr raw2))) ∧
    (process_reaction o st n (.obj m) true).st.ignore_next_turn_self_reach = true ∧
    (process_reaction o st n (.obj m) true).trace
        = [.attempt (.act ((st.id + 1) % bound) (reach_msg st.seat))] ∧
    (react_nr o st n (reach_msg st.seat)).out = .ok (process_reaction_nr raw2) := by
  rw [process_reaction_selfreach o st n m raw2 hflag htype hactor h,
      react_nr_reach_msg o st n raw2 hflag h]
  exact ⟨rfl, rfl, rfl, rfl⟩

/-- **C6, witness.**  The sub-protocol at a concrete state, reply and
follow-up reply — the follow-up reply is itself a reach reply, and still
only one follow-up attempt occurs (depth cap). -/
theorem C6_reach_dahai_embedding_witness :
    (process_reaction oReach st5 0 (.obj mReach0) true).out
        = .ok (some (mReach0.withReachDahai (process_reaction_nr (.obj mReach0)))) ∧
    (process_reaction oReach st5 0 (.obj mReach0) true).st.ignore_next_turn_self_reach
        = true ∧
    (process_reaction oReach st5 0 (.obj mReach0) true).trace
        = [.attempt (.act ((st5.id + 1) % bound) (reach_msg st5.seat))] ∧
    (react_nr oReach st5 0 (reach_msg st5.seat)).out
        = .ok (process_reaction_nr (.obj mReach0)) :=
  C6_reach_dahai_embedding oReach st5 0 mReach0 (.obj mReach0) rfl rfl rfl rfl

/-! ## C7 -/

/-- A malformed remote reply: not a structured mapping, or lacking a
`type` key. -/
def rawMalformed : Raw → Prop
  | .atom => True
  | .obj m => m.type = none

theorem process_reaction_malformed (o : Oracle) (st : BotState) (n : Nat) (raw : Raw)
    (rec : Bool) (h : rawMalformed raw) :
    process_reaction o st n raw rec = ⟨.ok none, st, n, []⟩ := by
  cases raw with
  | atom => rfl
  | obj m =>
    unfold process_reaction
    simp [show m.type = none from h]

/-- **C7.**  Malformed-reply normalization: a reply that is not a
structured mapping or lacks a `type` key is normalized to no-action
(`None`) without an exception and without any remote call, by
`_process_reaction` with either `recurse` flag (hence on both the single
and the batch path, which are also covered directly), while a reply
containing a `type` key is accepted — it is never normalized to
no-action. -/
theorem C7_malformed_reply_normalization :
    (∀ (o : Oracle) (st : BotState) (n : Nat) (raw : Raw) (rec : Bool),
       rawMalformed raw → process_reaction o st n raw rec = ⟨.ok none, st, n, []⟩) ∧
    (∀ raw : Raw, rawMalformed raw → process_reaction_nr raw = none) ∧
    (∀ (m : Msg) (t : String), m.type = some t → process_reaction_nr (.obj m) = some m) ∧
    (∀ (o : Oracle) (st : BotState) (n : Nat) (m : Msg) (t : String) (rec : Bool),
       m.type = some t → (process_reaction o st n (.obj m) rec).out ≠ .ok none) ∧
    (∀ (o : Oracle) (st : BotState) (n : Nat) (msg : Msg) (t : String) (raw : Raw),
       st.ignore_next_turn_self_reach = false → msg.type = some t → o n = .ok raw →
       rawMalformed raw → (react o st n msg true).out = .ok none) ∧
    (∀ (o : Oracle) (st : BotState) (n : Nat) (x : Msg) (xs : List Msg) (ca : Bool)
       (raw : Raw), o n = .ok raw → rawMalformed raw →
       (react_batch_impl o st n (x :: xs) ca).out = .ok none) := by
  refine ⟨process_reaction_malformed, ?_, ?_, ?_, ?_, ?_⟩
  · intro raw h
    cases raw with
    | atom => rfl
    | obj m => simp [process_reaction_nr, show m.type = none from h]
  · intro m t htype
    simp [process_reaction_nr, htype]
  · intro o st n m t rec htype
    unfold process_reaction
    simp only [htype]
    split
    · split
      · simp
      · split
        · split
          · simp
          · simp
        · simp
    · simp
  · intro o st n msg t raw hflag htype hok hmal
    unfold react
    rw [show react_pre st msg = .ok (.go st) by
      unfold react_pre; rw [htype]; simp [hflag]]
    simp only [react_send_ok o st n msg raw hok]
    rw [process_reaction_malformed o _ (n + 1) raw true hmal]
  · intro o st n x xs ca raw hok hmal
    unfold react_batch_impl
    simp only [retry_loop_retries_ok o _ n raw hok]
    rw [process_reaction_malformed o _ (n + 1) raw true hmal]

/-- **C7, witness.**  Normalization at concrete inputs: a non-dict reply on
the single path yields no-action; a typeless dict reply is pure-normalized;
a reply with a `type` key is not normalized away. -/
theorem C7_malformed_reply_normalization_witness :
    process_reaction oAtom st5 0 .atom true = ⟨.ok none, st5, 0, []⟩ ∧
    (react oAtom st5 0 mTsumo true).out = .ok none ∧
    (process_reaction oAtom st5 0 (.obj mReach0) false).out ≠ .ok none :=
  ⟨C7_malformed_reply_normalization.1 oAtom st5 0 .atom true trivial,
   C7_malformed_reply_normalization.2.2.2.2.1 oAtom st5 0 mTsumo "tsumo" .atom
     rfl rfl rfl trivial,
   C7_malformed_reply_normalization.2.2.2.1 oAtom st5 0 mReach0 MjaiType.REACH false rfl⟩

/-! ## C9 -/

theorem process_reaction_keyerror_actor (o : Oracle) (st : BotState) (n : Nat) (m : Msg)
    (htype : m.type = some MjaiType.REACH) (hactor : m.actor = none) :
    process_reaction o st n (.obj m) true = ⟨.error (.keyError "actor"), st, n, []⟩ := by
  unfold process_reaction
  simp [htype, hactor]

/-- **C9.**  A reply that is a mapping with `type = reach` but no `actor`
key makes `_process_reaction` with `recurse=true` raise a `KeyError`
instead of returning a result (the malformed-reply check only tests for
the `type` key), and the error escapes `react` to its caller. -/
theorem C9_reach_reply_missing_actor (o : Oracle) (st : BotState) (n : Nat) (m : Msg)
    (htype : m.type = some MjaiType.REACH) (hactor : m.actor = none) :
    process_reaction o st n (.obj m) true = ⟨.error (.keyError "actor"), st, n, []⟩ ∧
    (∀ (msg : Msg) (t : String), st.ignore_next_turn_self_reach = false →
       msg.type = some t → o n = .ok (.obj m) →
       (react o st n msg true).out = .error (.keyError "actor")) := by
  refine ⟨process_reaction_keyerror_actor o st n m htype hactor, ?_⟩
  intro msg t hflag htype2 hok
  unfold react
  rw [show react_pre st msg = .ok (.go st) by
    unfold react_pre; rw [htype2]; simp [hflag]]
  simp only [react_send_ok o st n msg (.obj m) hok]
  rw [process_reaction_keyerror_actor o _ (n + 1) m htype hactor]

/-- A reach-typed reply with no `actor` key. -/
def mReachNA : Msg := .mk (some MjaiType.REACH) none none none none none []

/-- A remote service that always replies with a reach-typed mapping lacking
the `actor` key. -/
def oReachNA : Oracle := fun _ => .ok (.obj mReachNA)

/-- **C9, witness.**  The `KeyError` at a concrete reply and session. -/
theorem C9_reach_reply_missing_actor_witness :
    process_reaction oReachNA st5 0 (.obj mReachNA) true
      = ⟨.error (.keyError "actor"), st5, 0, []⟩ ∧
    (react oReachNA st5 0 mTsumo true).out = .error (.keyError "actor") :=
  ⟨(C9_reach_reply_missing_actor oReachNA st5 0 mReachNA rfl rfl).1,
   (C9_reach_reply_missing_actor oReachNA st5 0 mReachNA rfl rfl).2 mTsumo "tsumo"
     rfl rfl rfl⟩

/-! ## C8 -/

/-- The truncation rule applied to one optional array field: a 4-entry
array is cut to its first 3 entries; anything else is untouched. -/
def trimOpt (v : Option (List α)) : Option (List α) :=
  v.map fun l => if l.length = 4 then l.take 3 else l

theorem trimStartKyoku_mk (t : Option String) (a : Option Nat) (s : Option (List Int))
    (te : Option (List (List String))) (c : Option Bool) (r : Option (Option Msg))
    (x : List (String × String)) :
    trimStartKyoku (.mk t a s te c r x) = .mk t a (trimOpt s) (trimOpt te) c r x := by
  unfold trimStartKyoku
  cases s <;> cases te <;> simp [trimOpt] <;> split_ifs <;> simp_all

/-- **C8.**  In 3-player mode both `_preprocess_for_3p` and the inline
batch rule apply the same trimming to a round-start event: a 4-entry
`scores` is truncated to its first 3 entries, likewise a 4-entry `tehais`;
a field that is absent or has 3 or fewer entries is unchanged; all other
fields are carried over unchanged.  (The functions are pure: they build a
new value from a copy and cannot mutate their input.) -/
theorem C8_start_kyoku_trimming (m : Msg) (htype : m.type = some MjaiType.START_KYOKU) :
    preprocess_for_3p .MJ3P m = trimStartKyoku m ∧
    preprocess_msg_3p .MJ3P m = trimStartKyoku m ∧
    (∀ s : List Int, m.scores = some s → s.length = 4 →
       (trimStartKyoku m).scores = some (s.take 3)) ∧
    (∀ s : List Int, m.scores = some s → s.length ≤ 3 →
       (trimStartKyoku m).scores = some s) ∧
    (m.scores = none → (trimStartKyoku m).scores = none) ∧
    (∀ te : List (List String), m.tehais = some te → te.length = 4 →
       (trimStartKyoku m).tehais = some (te.take 3)) ∧
    (∀ te : List (List String), m.tehais = some te → te.length ≤ 3 →
       (trimStartKyoku m).tehais = some te) ∧
    (m.tehais = none → (trimStartKyoku m).tehais = none) ∧
    (trimStartKyoku m).type = m.type ∧ (trimStartKyoku m).actor = m.actor ∧
    (trimStartKyoku m).can_act = m.can_act ∧
    (trimStartKyoku m).reach_dahai = m.reach_dahai ∧ (trimStartKyoku m).rest = m.rest := by
  obtain ⟨t, a, s, te, c, r, x⟩ := m
  simp only [Msg.type_mk] at htype
  subst htype
  rw [trimStartKyoku_mk]
  refine ⟨?_, ?_, ?_, ?_, ?_, ?_, ?_, ?_, rfl, rfl, rfl, rfl, rfl⟩
  · unfold preprocess_for_3p
    rw [trimStartKyoku_mk]
    simp
  · unfold preprocess_msg_3p
    rw [trimStartKyoku_mk]
    simp
  · intro s' hs hlen
    simp only [Msg.scores_mk] at hs
    subst hs
    simp [trimOpt, hlen]
  · intro s' hs hlen
    simp only [Msg.scores_mk] at hs
    subst hs
    have hne : s'.length ≠ 4 := by omega
    simp [trimOpt, hne]
  · intro hs
    simp only [Msg.scores_mk] at hs
    subst hs
    rfl
  · intro te' hte hlen
    simp only [Msg.tehais_mk] at hte
    subst hte
    simp [trimOpt, hlen]
  · intro te' hte hlen
    simp only [Msg.tehais_mk] at hte
    subst hte
    have hne : te'.length ≠ 4 := by omega
    simp [trimOpt, hne]
  · intro hte
    simp only [Msg.tehais_mk] at hte
    subst hte
    rfl

/-- A concrete 3-player round-start event with 4-entry scores and hands. -/
def mKyoku4 : Msg :=
  .mk (some MjaiType.START_KYOKU) none (some [250, 250, 250, 250])
    (some [["1m"], ["2m"], ["3m"], ["4m"]]) none none [("bakaze", "E")]

/-- **C8, witness.**  Trimming at a concrete round-start event with 4-entry
`scores` and `tehais`. -/
theorem C8_start_kyoku_trimming_witness :
    preprocess_for_3p .MJ3P mKyoku4 = trimStartKyoku mKyoku4 ∧
    (trimStartKyoku mKyoku4).scores = some ([250, 250, 250, 250].take 3) ∧
    (trimStartKyoku mKyoku4).tehais = some ([["1m"], ["2m"], ["3m"], ["4m"]].take 3) ∧
    (trimStartKyoku mKyoku4).rest = mKyoku4.rest :=
  ⟨(C8_start_kyoku_trimming mKyoku4 rfl).1,
   (C8_start_kyoku_trimming mKyoku4 rfl).2.2.1 [250, 250, 250, 250] rfl (by decide),
   (C8_start_kyoku_trimming mKyoku4 rfl).2.2.2.2.2.1 [["1m"], ["2m"], ["3m"], ["4m"]]
     rfl (by decide),
   (C8_start_kyoku_trimming mKyoku4 rfl).2.2.2.2.2.2.2.2.2.2.2.2⟩

/-! ## C5 support: shapes of transmitted batches -/

theorem Msg.can_act_withCanAct (m : Msg) (b : Bool) :
    (m.withCanAct b).can_act = some b := by
  cases m
  rfl

theorem Msg.can_act_preprocess (mode : GameMode) (m : Msg) :
    (preprocess_msg_3p mode m).can_act = m.can_act := by
  obtain ⟨t, a, s, te, c, r, x⟩ := m
  unfold preprocess_msg_3p
  split
  · split
    · split
      · rw [trimStartKyoku_mk]
        rfl
      · split
        · rfl
        · rfl
    · rfl
  · rfl

theorem build_batch_nil (mode : GameMode) (ca : Bool) (total : Nat) (curId : Int)
    (i : Nat) : build_batch mode ca total [] curId i = ([], curId) := rfl

theorem build_batch_cons (mode : GameMode) (ca : Bool) (total : Nat) (m : Msg)
    (ms : List Msg) (curId : Int) (i : Nat) :
    build_batch mode ca total (m :: ms) curId i
      = (((curId + 1) % bound,
          if i + 1 = total ∧ ca = false then (preprocess_msg_3p mode m).withCanAct false
          else preprocess_msg_3p mode m)
            :: (build_batch mode ca total ms ((curId + 1) % bound) (i + 1)).1,
         (build_batch mode ca total ms ((curId + 1) % bound) (i + 1)).2) := rfl

theorem build_batch_length (mode : GameMode) (ca : Bool) (total : Nat) :
    ∀ (l : List Msg) (curId : Int) (i : Nat),
      (build_batch mode ca total l curId i).1.length = l.length
  | [], _, _ => rfl
  | m :: ms, curId, i => by
    simp [build_batch, build_batch_length mode ca total ms ((curId + 1) % bound) (i + 1)]

theorem build_batch_canAct_true (mode : GameMode) (total : Nat) :
    ∀ (l : List Msg) (curId : Int) (i : Nat),
      (∀ m ∈ l, m.can_act = none) →
      (build_batch mode true total l curId i).1.map (fun p => p.2.can_act)
        = List.replicate l.length none
  | [], _, _, _ => rfl
  | m :: ms, curId, i, hnone => by
    simp only [build_batch, List.map_cons, List.length_cons, List.replicate_succ]
    rw [if_neg (by simp)]
    rw [Msg.can_act_preprocess, hnone m (List.mem_cons_self _ _),
        build_batch_canAct_true mode total ms ((curId + 1) % bound) (i + 1)
          (fun m' h => hnone m' (List.mem_cons_of_mem _ h))]

theorem build_batch_canAct_false (mode : GameMode) (total : Nat) :
    ∀ (l : List Msg) (curId : Int) (i : Nat), l ≠ [] → i + l.length = total →
      (∀ m ∈ l, m.can_act = none) →
      (build_batch mode false total l curId i).1.map (fun p => p.2.can_act)
        = List.replicate (l.length - 1) none ++ [some false]
  | [], _, _, hne, _, _ => absurd rfl hne
  | [m], curId, i, _, htot, _ => by
    have hi : i + 1 = total := by simpa using htot
    rw [build_batch_cons, build_batch_nil]
    simp [hi, Msg.can_act_withCanAct]
  | m :: m2 :: ms, curId, i, _, htot, hnone => by
    have hne : ¬(i + 1 = total) := by
      simp only [List.length_cons] at htot
      omega
    have ih := build_batch_canAct_false mode total (m2 :: ms) ((curId + 1) % bound) (i + 1)
      (by simp) (by simp only [List.length_cons] at htot ⊢; omega)
      (fun m' h => hnone m' (List.mem_cons_of_mem _ h))
    rw [build_batch_cons, List.map_cons]
    rw [if_neg (by simp [hne])]
    rw [Msg.can_act_preprocess, hnone m (List.mem_cons_self _ _), ih]
    simp [List.replicate_succ]

theorem batchReqs_retry_act (o : Oracle) (s : Int) (m : Msg) :
    ∀ (fuel n : Nat), batchReqs (retry_loop o (.act s m) fuel n).trace = []
  | 0, _ => rfl
  | fuel + 1, n => by
    unfold retry_loop
    split
    · rfl
    · split
      · rfl
      · simp [batchReqs_retry_act o s m fuel (n + 1)]

theorem batchReqs_react_send (o : Oracle) (st : BotState) (n : Nat) (msg : Msg) :
    batchReqs (react_send o st n msg).trace = [] := by
  unfold react_send
  dsimp only
  split
  · exact batchReqs_retry_act o _ msg retries n
  · exact batchReqs_retry_act o _ msg retries n

theorem batchReqs_react_nr (o : Oracle) (st : BotState) (n : Nat) (msg : Msg) :
    batchReqs (react_nr o st n msg).trace = [] := by
  unfold react_nr
  split
  · rfl
  · rfl
  · dsimp only
    split
    · exact batchReqs_react_send o _ n msg
    · exact batchReqs_react_send o _ n msg

theorem batchReqs_process_reaction (o : Oracle) (st : BotState) (n : Nat) (raw : Raw)
    (rec : Bool) : batchReqs (process_reaction o st n raw rec).trace = [] := by
  unfold process_reaction
  split
  · rfl
  · split
    · rfl
    · split
      · split
        · rfl
        · split
          · dsimp only
            split
            · exact batchReqs_react_nr o st n _
            · exact batchReqs_react_nr o st n _
          · rfl
      · rfl

theorem react_batch_impl_batchReqs (o : Oracle) (st : BotState) (n : Nat) (x : Msg)
    (xs : List Msg) (ca : Bool) (raw : Raw) (h : o n = .ok raw) :
    batchReqs (react_batch_impl o st n (x :: xs) ca).trace
      = [(build_batch st.current_mode ca (x :: xs).length (x :: xs) st.id 0).1] := by
  unfold react_batch_impl
  simp only [retry_loop_retries_ok o _ n raw h]
  simp [batchReqs_append, batchReqs_process_reaction]

theorem react_nr_reach_out_ok (o : Oracle) (ho : OkOracle o) (st : BotState) (n : Nat) :
    ∃ v, (react_nr o st n (reach_msg st.seat)).out = .ok v := by
  by_cases hf : st.ignore_next_turn_self_reach
  · refine ⟨none, ?_⟩
    unfold react_nr
    rw [show react_pre st (reach_msg st.seat) = .ok .suppressed by
      unfold react_pre reach_msg; simp [hf]]
  · obtain ⟨raw, hraw⟩ := ho n
    exact ⟨process_reaction_nr raw, by
      rw [react_nr_reach_msg o st n raw (by simpa using hf) hraw]⟩

theorem process_reaction_out_ok (o : Oracle) (ho : OkOracle o) (st : BotState) (n : Nat)
    (raw : Raw) (rec : Bool)
    (hra : ∀ m, raw = .obj m → m.type = some MjaiType.REACH → ∃ a, m.actor = some a) :
    ∃ v, (process_reaction o st n raw rec).out = .ok v := by
  unfold process_reaction
  split
  · exact ⟨none, rfl⟩
  · next m =>
    split
    · exact ⟨none, rfl⟩
    · next t htype =>
      split
      · next hc =>
        obtain ⟨a, hactor⟩ := hra m rfl (by rw [htype, hc.2])
        split
        · next heq => rw [hactor] at heq; cases heq
        · next a' heq =>
          split
          · dsimp only
            obtain ⟨v, hv⟩ := react_nr_reach_out_ok o ho st n
            split
            · next e heq2 => rw [hv] at heq2; cases heq2
            · exact ⟨_, rfl⟩
          · exact ⟨some m, rfl⟩
      · exact ⟨some m, rfl⟩

theorem react_batch_impl_out_ok (o : Oracle) (ho : OkOracle o) (ha : ActorOracle o)
    (st : BotState) (n : Nat) (l : List Msg) (ca : Bool) :
    ∃ v, (react_batch_impl o st n l ca).out = .ok v := by
  cases l with
  | nil => exact ⟨none, rfl⟩
  | cons x xs =>
    obtain ⟨raw, hraw⟩ := ho n
    unfold react_batch_impl
    simp only [retry_loop_retries_ok o _ n raw hraw]
    obtain ⟨v, hv⟩ := process_reaction_out_ok o ho
      { st with id := (build_batch st.current_mode ca (x :: xs).length (x :: xs) st.id 0).2 }
      (n + 1) raw true (fun m hm htype => ha n m (by rw [hraw, hm]) htype)
    exact ⟨v, hv⟩

theorem chunksAux_congr : ∀ (f1 : Nat) (l : List Msg) (f2 : Nat),
    l.length ≤ f1 → l.length ≤ f2 → chunksAux f1 l = chunksAux f2 l := by
  intro f1
  induction f1 with
  | zero =>
    intro l f2 h1 h2
    have : l = [] := List.eq_nil_of_length_eq_zero (by omega)
    subst this
    cases f2 <;> rfl
  | succ k ih =>
    intro l f2 h1 h2
    cases l with
    | nil => cases f2 <;> rfl
    | cons x xs =>
      cases f2 with
      | zero => simp at h2
      | succ j =>
        show (x :: xs).take batch_size :: chunksAux k (xs.drop (batch_size - 1))
          = (x :: xs).take batch_size :: chunksAux j (xs.drop (batch_size - 1))
        congr 1
        apply ih
        · simp only [List.length_drop]
          simp only [List.length_cons] at h1
          omega
        · simp only [List.length_drop]
          simp only [List.length_cons] at h2
          omega

theorem chunks24_cons (x : Msg) (xs : List Msg) :
    chunks24 (x :: xs)
      = (x :: xs).take batch_size :: chunks24 ((x :: xs).drop batch_size) := by
  show (x :: xs).take batch_size :: chunksAux xs.length (xs.drop (batch_size - 1))
    = (x :: xs).take batch_size :: chunks24 ((x :: xs).drop batch_size)
  congr 1
  rw [show (x :: xs).drop batch_size = xs.drop (batch_size - 1) from by
    rw [show batch_size = 23 + 1 from rfl, List.drop_succ_cons]]
  apply chunksAux_congr
  · simp only [List.length_drop]
    omega
  · exact Nat.le_refl _

/-! ## C5 -/

/-- **C5.**  A batch of 50 events (none carrying an explicit `can_act`
annotation, no suppression drop) under a remote service that never raises
and whose reach-typed replies carry an `actor` key: `react_batch` makes
exactly 3 outbound batched calls of sizes 24, 24 and 2; in each of the two
non-final calls exactly the last event carries an explicit
`can_act = False` annotation; no other event of any call carries an
explicit `can_act` annotation — in particular no event of the final call
carries a false-override, so only its final event is actionable. -/
theorem C5_fifty_event_batching (o : Oracle) (ho : OkOracle o) (ha : ActorOracle o)
    (st : BotState) (n : Nat) (l : List Msg)
    (hflag : st.ignore_next_turn_self_reach = false)
    (hlen : l.length = 50) (hnone : ∀ m ∈ l, m.can_act = none) :
    (batchReqs (react_batch o st n l).trace).map List.length = [24, 24, 2] ∧
    (batchReqs (react_batch o st n l).trace).map (fun d => d.map fun p => p.2.can_act)
      = [List.replicate 23 none ++ [some false],
         List.replicate 23 none ++ [some false],
         [none, none]] := by
  obtain ⟨x, xs, rfl⟩ : ∃ x xs, l = x :: xs := by
    cases l with
    | nil => simp at hlen
    | cons x xs => exact ⟨x, xs, rfl⟩
  have hxs : xs.length = 49 := by simpa using hlen
  -- `react_batch` reduces to the three-chunk dispatch loop
  have hnb : ((x :: xs).length - 1) / batch_size + 1 = 3 := by
    simp only [List.length_cons, hxs, batch_size]
  have hrb : react_batch o st n (x :: xs)
      = react_batch_loop o 3 (chunks24 (x :: xs)) 0 st n := by
    unfold react_batch
    rw [show react_batch_pre st (x :: xs) = .ok (st, x :: xs) by
      unfold react_batch_pre; simp [hflag]]
    dsimp only
    rw [hnb]
  -- the three chunks, in head-tail form
  obtain ⟨y, ys, hy⟩ : ∃ y ys, (x :: xs).drop batch_size = y :: ys := by
    apply List.exists_cons_of_ne_nil
    apply List.ne_nil_of_length_pos
    simp [hxs, batch_size]
  have h26 : (y :: ys).length = 26 := by
    rw [← hy]
    simp [hxs, batch_size]
  have hys : ys.length = 25 := by simpa using h26
  obtain ⟨z, zs, hz⟩ : ∃ z zs, (y :: ys).drop batch_size = z :: zs := by
    apply List.exists_cons_of_ne_nil
    apply List.ne_nil_of_length_pos
    simp only [List.length_drop, List.length_cons, hys, batch_size]
    omega
  have h2 : (z :: zs).length = 2 := by
    rw [← hz]
    simp only [List.length_drop, List.length_cons, hys, batch_size]
  have e1 : (x :: xs).take batch_size = x :: xs.take 23 := by
    rw [show batch_size = 23 + 1 from rfl, List.take_succ_cons]
  have e2 : (y :: ys).take batch_size = y :: ys.take 23 := by
    rw [show batch_size = 23 + 1 from rfl, List.take_succ_cons]
  have hch : chunks24 (x :: xs) = [x :: xs.take 23, y :: ys.take 23, z :: zs] := by
    rw [chunks24_cons, hy, chunks24_cons, hz, chunks24_cons]
    rw [show (z :: zs).drop batch_size = [] from
      List.drop_eq_nil_of_le (by rw [h2]; norm_num [batch_size])]
    rw [show chunks24 [] = [] from rfl]
    rw [show (z :: zs).take batch_size = z :: zs from
      List.take_of_length_le (by rw [h2]; norm_num [batch_size])]
    rw [e1, e2]
  -- the events of every chunk carry no explicit can_act annotation
  have hysub : ∀ m ∈ y :: ys, m.can_act = none := by
    rw [← hy]
    exact fun m hm => hnone m (List.drop_subset _ _ hm)
  have hmem1 : ∀ m ∈ x :: xs.take 23, m.can_act = none := by
    rw [← e1]
    exact fun m hm => hnone m (List.take_subset _ _ hm)
  have hmem2 : ∀ m ∈ y :: ys.take 23, m.can_act = none := by
    rw [← e2]
    exact fun m hm => hysub m (List.take_subset _ _ hm)
  have hmem3 : ∀ m ∈ z :: zs, m.can_act = none := by
    rw [← hz]
    exact fun m hm => hysub m (List.drop_subset _ _ hm)
  -- chunk lengths
  have l1 : (x :: xs.take 23).length = 24 := by
    simp only [List.length_cons, List.length_take]
    rw [Nat.min_eq_left (by omega)]
  have l2 : (y :: ys.take 23).length = 24 := by
    simp only [List.length_cons, List.length_take]
    rw [Nat.min_eq_left (by omega)]
  -- run the three-chunk loop
  rw [hrb, hch]
  simp only [react_batch_loop]
  simp only [show (decide (0 + 1 = 3) : Bool) = false from rfl,
             show (decide (0 + 1 + 1 = 3) : Bool) = false from rfl,
             show (decide (0 + 1 + 1 + 1 = 3) : Bool) = true from rfl,
             decide_True, decide_False]
  obtain ⟨v1, hv1⟩ := react_batch_impl_out_ok o ho ha st n (x :: xs.take 23) false
  simp only [hv1]
  obtain ⟨v2, hv2⟩ := react_batch_impl_out_ok o ho ha
    (react_batch_impl o st n (x :: xs.take 23) false).st
    (react_batch_impl o st n (x :: xs.take 23) false).clock
    (y :: ys.take 23) false
  simp only [hv2]
  obtain ⟨raw1, hraw1⟩ := ho n
  obtain ⟨raw2, hraw2⟩ := ho (react_batch_impl o st n (x :: xs.take 23) false).clock
  obtain ⟨raw3, hraw3⟩ := ho (react_batch_impl o
    (react_batch_impl o st n (x :: xs.take 23) false).st
    (react_batch_impl o st n (x :: xs.take 23) false).clock
    (y :: ys.take 23) false).clock
  simp only [batchReqs_append]
  rw [react_batch_impl_batchReqs o st n x (xs.take 23) false raw1 hraw1,
      react_batch_impl_batchReqs o _ _ y (ys.take 23) false raw2 hraw2,
      react_batch_impl_batchReqs o _ _ z zs true raw3 hraw3]
  constructor
  · simp only [List.cons_append, List.nil_append, List.map_cons, List.map_nil]
    rw [build_batch_length, build_batch_length, build_batch_length, l1, l2, h2]
  · simp only [List.cons_append, List.nil_append, List.map_cons, List.map_nil]
    rw [build_batch_canAct_false _ _ (x :: xs.take 23) st.id 0 (by simp) (by simp) hmem1,
        build_batch_canAct_false _ _ (y :: ys.take 23) _ 0 (by simp) (by simp) hmem2,
        build_batch_canAct_true _ _ (z :: zs) _ 0 hmem3]
    rw [l1, l2, h2]
    rfl

/-- A remote service replying `None` to chunk calls, used as the C5
witness oracle. -/
theorem C5_fifty_event_batching_witness :
    (batchReqs (react_batch oAtom st5 0 (List.replicate 50 mTsumo)).trace).map
        List.length = [24, 24, 2] ∧
    (batchReqs (react_batch oAtom st5 0 (List.replicate 50 mTsumo)).trace).map
        (fun d => d.map fun p => p.2.can_act)
      = [List.replicate 23 none ++ [some false],
         List.replicate 23 none ++ [some false],
         [none, none]] :=
  C5_fifty_event_batching oAtom (fun _ => ⟨.atom, rfl⟩)
    (fun k m hk => by simp [oAtom] at hk) st5 0 (List.replicate 50 mTsumo)
    rfl (by simp) (fun m hm => by rw [List.eq_of_mem_replicate hm]; rfl)

/-! ## C10 -/

/-- A remote service whose first attempt (the first chunk's batch call)
replies with seat 0's reach declaration and every later attempt replies
with a non-dict value. -/
def oTwoChunk : Oracle := fun k => if k = 0 then .ok (.obj mReach0) else .ok .atom

/-- **C10.**  Every chunk's reply — the chunk flag `can_act` is arbitrary,
so non-final chunks included — is passed through
`_process_reaction(-, recurse=True)`: a reach-typed reply with
`actor = seat` for any chunk triggers the synthetic follow-up `act` call
and sets the suppression flag.  Concretely, for a 25-event batch (two
chunks) whose first chunk's reply is a self-reach: the returned reaction is
the second chunk's (the first chunk's embedded reaction is discarded by the
dispatch loop), yet the flag is set and a third remote call — the
follow-up triggered by the discarded first-chunk reply — appears in the
trace. -/
theorem C10_nonfinal_chunk_recursive_processing :
    (∀ (o : Oracle) (st : BotState) (n : Nat) (x : Msg) (xs : List Msg) (ca : Bool)
       (m : Msg) (raw2 : Raw),
       st.ignore_next_turn_self_reach = false →
       o n = .ok (.obj m) → m.type = some MjaiType.REACH → m.actor = some st.seat →
       o (n + 1) = .ok raw2 →
       (react_batch_impl o st n (x :: xs) ca).st.ignore_next_turn_self_reach = true ∧
       (react_batch_impl o st n (x :: xs) ca).trace
         = [.attempt (.batch (build_batch st.current_mode ca (x :: xs).length
              (x :: xs) st.id 0).1),
            .attempt (.act (((build_batch st.current_mode ca (x :: xs).length
              (x :: xs) st.id 0).2 + 1) % bound) (reach_msg st.seat))] ∧
       (react_batch_impl o st n (x :: xs) ca).out
         = .ok (some (m.withReachDahai (process_reaction_nr raw2)))) ∧
    ((react_batch oTwoChunk st5 0 (List.replicate 25 mTsumo)).out = .ok none ∧
     (react_batch oTwoChunk st5 0
        (List.replicate 25 mTsumo)).st.ignore_next_turn_self_reach = true ∧
     (attemptsOf (react_batch oTwoChunk st5 0 (List.replicate 25 mTsumo)).trace).length
        = 3) := by
  constructor
  · intro o st n x xs ca m raw2 hflag hok htype hactor hok2
    unfold react_batch_impl
    simp only [retry_loop_retries_ok o _ n (.obj m) hok]
    rw [process_reaction_selfreach o
      { st with id := (build_batch st.current_mode ca (x :: xs).length (x :: xs) st.id 0).2 }
      (n + 1) m raw2 hflag htype hactor hok2]
    refine ⟨?_, ?_, ?_⟩ <;> rfl
  · refine ⟨?_, ?_, ?_⟩ <;> rfl

/-- **C10, witness.**  The universal part applied to a concrete non-final
chunk (`can_act = false`) whose reply is this seat's reach declaration. -/
theorem C10_nonfinal_chunk_recursive_processing_witness :
    (react_batch_impl oTwoChunk st5 0 [mTsumo] false).st.ignore_next_turn_self_reach
        = true ∧
    (react_batch_impl oTwoChunk st5 0 [mTsumo] false).trace
      = [.attempt (.batch (build_batch st5.current_mode false ([mTsumo] : List Msg).length
           [mTsumo] st5.id 0).1),
         .attempt (.act (((build_batch st5.current_mode false ([mTsumo] : List Msg).length
           [mTsumo] st5.id 0).2 + 1) % bound) (reach_msg st5.seat))] ∧
    (react_batch_impl oTwoChunk st5 0 [mTsumo] false).out
      = .ok (some (mReach0.withReachDahai (process_reaction_nr .atom))) :=
  C10_nonfinal_chunk_recursive_processing.1 oTwoChunk st5 0 mTsumo [] false mReach0
    .atom rfl rfl rfl rfl rfl

end BotMjapi
